import Mathlib

/-!
Verification development for `segmed/models/multiresunet.py`.

The source file builds a Keras computation graph (the MultiResUNet
architecture) through the functional API.  We embed graph construction
shallowly: a layer call appends a `Node` (layer kind plus the ids of the
tensors it is applied to) to a builder state, and returns a symbolic
`Tensor` carrying its id and its inferred static shape.  A framework layer
call that would raise a shape error in Keras (pooling a window larger than
the input, concatenating or adding tensors of incompatible shapes) is
modelled by returning `none`; graph construction is therefore an
`Option`-valued computation, sequenced with the explicit bind `step`, and
`MultiResUnet` returns `some model` exactly when Keras would build the
model without raising.

Python float scalars (`alpha = 1.67`, the constants `0.167`, `0.333`,
`0.5`) are modelled as exact rationals, and Python `int()` as truncation
toward zero (`pyInt`); for every filter count actually materialised by the
source these agree with IEEE double evaluation.
-/

/-- Static shape of a symbolic image tensor: height, width, channels
(the batch dimension is elided, as Keras treats it uniformly).  Channels
are `Int` because filter counts are computed by Python integer arithmetic. -/
structure Shape where
  h : Nat
  w : Nat
  c : Int
deriving DecidableEq, Repr

/-- Padding mode of a convolution or pooling layer. -/
inductive Padding where
  | same
  | valid
deriving DecidableEq, Repr

/-- Layer kinds appearing in the constructed graph.  Each constructor
records the configuration arguments passed to the Keras layer. -/
inductive Op where
  | input (s : Shape)
  | conv2D (filters : Int) (kernel : Nat × Nat) (strides : Nat × Nat)
      (padding : Padding) (useBias : Bool)
  | batchNorm (scale : Bool)
  | activation (name : String)
  | maxPool (pool : Nat × Nat)
  | convTranspose (filters : Int) (kernel : Nat × Nat) (strides : Nat × Nat)
      (padding : Padding)
  | concatenate
  | add
deriving DecidableEq, Repr

/-- One node of the constructed graph: the layer kind and the ids of the
tensors the layer is applied to, in call order. -/
structure Node where
  op : Op
  inputs : List Nat
deriving DecidableEq, Repr

/-- A symbolic tensor: the id of the node that produced it and its static
shape. -/
structure Tensor where
  id : Nat
  shape : Shape
deriving DecidableEq, Repr

/-- Builder state: the number of nodes created so far and the created
nodes, most recent first. -/
structure GState where
  n : Nat
  rev : List Node
deriving DecidableEq, Repr

/-- The value returned by the model-construction function: the graph in
creation order, and the input and output tensors handed to `K.Model`. -/
structure Model where
  graph : List Node
  inputs : List Tensor
  outputs : List Tensor
deriving DecidableEq, Repr

/-- Python `int()` on an exact rational: truncation toward zero. -/
def pyInt (q : ℚ) : Int :=
  q.num.tdiv (q.den : Int)

/-- Ceiling division, used by the `same`-padding output-size formula. -/
def ceilDiv (a b : Nat) : Nat :=
  (a + b - 1) / b

/-- Output spatial extent of a convolution with kernel `k`, stride `s` and
the given padding, on an input extent `h` (the Keras formulas).  With
`valid` padding a window larger than the input is a framework error. -/
def convOutDim (h k s : Nat) (p : Padding) : Option Nat :=
  match p with
  | Padding.same => some (ceilDiv h s)
  | Padding.valid => if k ≤ h then some ((h - k) / s + 1) else none

/-- Output spatial extent of a max pooling with window `p` (stride
defaults to the window, padding to `valid` — the configuration used by the
source). -/
def poolOutDim (h p : Nat) : Option Nat :=
  if p ≤ h then some ((h - p) / p + 1) else none

/-- Output spatial extent of a transposed convolution (Keras formulas). -/
def convTransposeOutDim (h k s : Nat) (p : Padding) : Nat :=
  match p with
  | Padding.same => s * h
  | Padding.valid => s * (h - 1) + k

/-- Folding step of channel-axis concatenation: each further input must
agree with the accumulated shape on the spatial extents; channels are
summed left to right. -/
def concatFold (acc : Shape) : List Shape → Option Shape
  | [] => some acc
  | r :: rest =>
      if acc.h = r.h ∧ acc.w = r.w then
        concatFold (Shape.mk acc.h acc.w (acc.c + r.c)) rest
      else none

/-- Output shape of a concatenation along the channel axis. -/
def concatShape : List Shape → Option Shape
  | [] => none
  | s :: rest => concatFold s rest

/-- Output shape of an elementwise add of two tensors: the shapes must be
identical. -/
def addShape : List Shape → Option Shape
  | [s1, s2] => if s1 = s2 then some s1 else none
  | _ => none

/-- Static shape inference for one layer call, given the shapes of the
tensors it is applied to.  `none` models the framework raising a shape
error at graph-construction time. -/
def opOutShape : Op → List Shape → Option Shape
  | Op.input s, [] => some s
  | Op.conv2D f k st p _, [s] =>
      match convOutDim s.h k.1 st.1 p, convOutDim s.w k.2 st.2 p with
      | some oh, some ow => some ⟨oh, ow, f⟩
      | _, _ => none
  | Op.batchNorm _, [s] => some s
  | Op.activation _, [s] => some s
  | Op.maxPool pz, [s] =>
      match poolOutDim s.h pz.1, poolOutDim s.w pz.2 with
      | some oh, some ow => some ⟨oh, ow, s.c⟩
      | _, _ => none
  | Op.convTranspose f k st p, [s] =>
      some ⟨convTransposeOutDim s.h k.1 st.1 p, convTransposeOutDim s.w k.2 st.2 p, f⟩
  | Op.concatenate, ss => concatShape ss
  | Op.add, ss => addShape ss
  | _, _ => none

/-- A framework layer call: infer the output shape from the argument
tensors (failing as Keras would), append the node, and return the new
symbolic tensor. -/
def applyLayer (st : GState) (op : Op) (xs : List Tensor) : Option (Tensor × GState) :=
  match opOutShape op (xs.map Tensor.shape) with
  | none => none
  | some sh => some (⟨st.n, sh⟩, ⟨st.n + 1, ⟨op, xs.map Tensor.id⟩ :: st.rev⟩)

/-- Sequencing of layer calls: propagate a framework error, otherwise pass
the produced value and the updated builder state to the continuation. -/
def step {β α : Type} (r : Option (β × GState)) (k : β → GState → Option α) : Option α :=
  match r with
  | none => none
  | some (x, st) => k x st

/-- `conv2d` from the source: a `Conv2D` layer (no bias) followed by
`BatchNormalization(scale=False)` and, unless `activation is None`, an
`Activation` layer. -/
def conv2d (st : GState) (x : Tensor) (filters : Int) (shape : Nat × Nat)
    (padding : Padding := Padding.same) (strides : Nat × Nat := (1, 1))
    (activation : Option String := some "relu") : Option (Tensor × GState) :=
  step (applyLayer st (Op.conv2D filters shape strides padding false) [x]) fun x1 st =>
  step (applyLayer st (Op.batchNorm false) [x1]) fun x2 st =>
  match activation with
  | none => some (x2, st)
  | some act => applyLayer st (Op.activation act) [x2]

/-- `MultiResBlock` from the source: `weight = u_val * alpha`; a 1×1
dimension-conservation convolution with `int(weight*0.167) +
int(weight*0.333) + int(weight*0.5)` filters, three chained 3×3
convolutions with `int(weight*0.167)`, `int(weight*0.333)`,
`int(weight*0.5)` filters, their concatenation batch-normalized, added to
the shortcut, then relu and a final batch normalization. -/
def MultiResBlock (st : GState) (u_val : Int) (input : Tensor)
    (alpha : ℚ := 1.67) : Option (Tensor × GState) :=
  let weight : ℚ := u_val * alpha
  step (conv2d st input
      (pyInt (weight * 0.167) + pyInt (weight * 0.333) + pyInt (weight * 0.5))
      (1, 1) Padding.same (1, 1) none) fun dimension_conservation st =>
  step (conv2d st input (pyInt (weight * 0.167)) (3, 3)
      Padding.same (1, 1) (some "relu")) fun conv3x3 st =>
  step (conv2d st conv3x3 (pyInt (weight * 0.333)) (3, 3)
      Padding.same (1, 1) (some "relu")) fun conv5x5 st =>
  step (conv2d st conv5x5 (pyInt (weight * 0.5)) (3, 3)
      Padding.same (1, 1) (some "relu")) fun conv7x7 st =>
  step (applyLayer st Op.concatenate [conv3x3, conv5x5, conv7x7]) fun out1 st =>
  step (applyLayer st (Op.batchNorm true) [out1]) fun out2 st =>
  step (applyLayer st Op.add [dimension_conservation, out2]) fun out3 st =>
  step (applyLayer st (Op.activation "relu") [out3]) fun out4 st =>
  applyLayer st (Op.batchNorm true) [out4]

/-- Body of the `for _ in range(length - 1)` loop of `ResPath`, iterated
`k` times: each iteration adds one residual unit (1×1 shortcut
convolution, 3×3 convolution, add, relu, batch normalization). -/
def resPathLoop (st : GState) (filters : Int) (out : Tensor) : Nat → Option (Tensor × GState)
  | 0 => some (out, st)
  | Nat.succ k =>
      step (conv2d st out filters (1, 1) Padding.same (1, 1) none) fun residual st =>
      step (conv2d st out filters (3, 3) Padding.same (1, 1) (some "relu")) fun out1 st =>
      step (applyLayer st Op.add [residual, out1]) fun out2 st =>
      step (applyLayer st (Op.activation "relu") [out2]) fun out3 st =>
      step (applyLayer st (Op.batchNorm true) [out3]) fun out4 st =>
      resPathLoop st filters out4 k

/-- `ResPath` from the source: one residual unit, then — when `length` is
not `None` — `length - 1` further units (Python `range(length - 1)`, so
none when `length - 1 ≤ 0`). -/
def ResPath (st : GState) (filters : Int) (input : Tensor)
    (length : Option Int := none) : Option (Tensor × GState) :=
  step (conv2d st input filters (1, 1) Padding.same (1, 1) none) fun residual st =>
  step (conv2d st input filters (3, 3) Padding.same (1, 1) (some "relu")) fun out1 st =>
  step (applyLayer st Op.add [residual, out1]) fun out2 st =>
  step (applyLayer st (Op.activation "relu") [out2]) fun out3 st =>
  step (applyLayer st (Op.batchNorm true) [out3]) fun out4 st =>
  match length with
  | none => some (out4, st)
  | some l => resPathLoop st filters out4 (l - 1).toNat

/-- `MultiResUnet` from the source: the U-shaped encoder–decoder graph
(four encoder levels of MultiResBlock / 2×2 max-pooling / ResPath, a
bottleneck MultiResBlock, four decoder levels of 2×2-stride transposed
convolution / concatenation with the skip / MultiResBlock, and a final
1-filter sigmoid `conv2d`), returned as a model whose input is the `Input`
layer and whose output is the final convolution. -/
def MultiResUnet (input_size : Shape := ⟨256, 256, 3⟩) : Option Model :=
  step (applyLayer ⟨0, []⟩ (Op.input input_size) []) fun inputs st =>

  step (MultiResBlock st 32 inputs) fun mresblock_1 st =>
  step (applyLayer st (Op.maxPool (2, 2)) [mresblock_1]) fun pool_1 st =>
  step (ResPath st 32 mresblock_1 (some 4)) fun mresblock_1 st =>

  step (MultiResBlock st 64 pool_1) fun mresblock_2 st =>
  step (applyLayer st (Op.maxPool (2, 2)) [mresblock_2]) fun pool_2 st =>
  step (ResPath st 64 mresblock_2 (some 3)) fun mresblock_2 st =>

  step (MultiResBlock st 128 pool_2) fun mresblock_3 st =>
  step (applyLayer st (Op.maxPool (2, 2)) [mresblock_3]) fun pool_3 st =>
  step (ResPath st 128 mresblock_3 (some 2)) fun mresblock_3 st =>

  step (MultiResBlock st 256 pool_3) fun mresblock_4 st =>
  step (applyLayer st (Op.maxPool (2, 2)) [mresblock_4]) fun pool_4 st =>
  step (ResPath st 256 mresblock_4) fun mresblock_4 st =>

  step (MultiResBlock st 512 pool_4) fun mresblock5 st =>

  step (applyLayer st (Op.convTranspose 256 (2, 2) (2, 2) Padding.same) [mresblock5]) fun up_6 st =>
  step (applyLayer st Op.concatenate [up_6, mresblock_4]) fun up_6 st =>
  step (MultiResBlock st 256 up_6) fun mresblock_6 st =>

  step (applyLayer st (Op.convTranspose 128 (2, 2) (2, 2) Padding.same) [mresblock_6]) fun up_7 st =>
  step (applyLayer st Op.concatenate [up_7, mresblock_3]) fun up_7 st =>
  step (MultiResBlock st 128 up_7) fun mresblock7 st =>

  step (applyLayer st (Op.convTranspose 64 (2, 2) (2, 2) Padding.same) [mresblock7]) fun up_8 st =>
  step (applyLayer st Op.concatenate [up_8, mresblock_2]) fun up_8 st =>
  step (MultiResBlock st 64 up_8) fun mresblock8 st =>

  step (applyLayer st (Op.convTranspose 32 (2, 2) (2, 2) Padding.same) [mresblock8]) fun up_9 st =>
  step (applyLayer st Op.concatenate [up_9, mresblock_1]) fun up_9 st =>
  step (MultiResBlock st 32 up_9) fun mresblock9 st =>

  step (conv2d st mresblock9 1 (1, 1) Padding.same (1, 1) (some "sigmoid")) fun conv_10 st =>
  some ⟨st.rev.reverse, [inputs], [conv_10]⟩

/-! ### Derived graph predicates -/

/-- Helper for `isDAG`: node at position `i` may only consume tensors
produced by nodes at positions strictly below `i`. -/
def isDAGAux : Nat → List Node → Bool
  | _, [] => true
  | i, nd :: rest => nd.inputs.all (fun j => j < i) && isDAGAux (i + 1) rest

/-- A graph (in creation order) is acyclic in the layer-application sense:
every node is applied only to outputs of nodes constructed earlier. -/
def isDAG (g : List Node) : Bool :=
  isDAGAux 0 g

/-- The operation set named by the specification: convolution, batch
normalization, pooling, concatenation, transposed convolution. -/
def specOpSet : Op → Bool
  | Op.conv2D _ _ _ _ _ => true
  | Op.batchNorm _ => true
  | Op.maxPool _ => true
  | Op.concatenate => true
  | Op.convTranspose _ _ _ _ => true
  | _ => false

/-- The operation set actually used by the code: the specification's five
kinds plus the input placeholder, activation layers and elementwise
addition. -/
def extOpSet : Op → Bool
  | Op.input _ => true
  | Op.conv2D _ _ _ _ _ => true
  | Op.batchNorm _ => true
  | Op.activation _ => true
  | Op.maxPool _ => true
  | Op.convTranspose _ _ _ _ => true
  | Op.concatenate => true
  | Op.add => true

/-- The filter counts of all convolution nodes of a graph, in creation
order. -/
def convFilters (g : List Node) : List Int :=
  g.filterMap fun nd =>
    match nd.op with
    | Op.conv2D f _ _ _ _ => some f
    | _ => none

/-! ### Characterization of the individual builder steps

Each lemma rewrites one helper call into its explicit `some` result (or
propagates it), so larger proofs can proceed call by call instead of
unfolding the whole construction at once. -/

theorem step_some {β α : Type} (x : β) (st : GState) (k : β → GState → Option α) :
    step (some (x, st)) k = k x st := rfl

theorem step_none {β α : Type} (k : β → GState → Option α) :
    step none k = none := rfl

theorem step_assoc {β γ α : Type} (r : Option (β × GState))
    (k1 : β → GState → Option (γ × GState)) (k2 : γ → GState → Option α) :
    step (step r k1) k2 = step r (fun x st => step (k1 x st) k2) := by
  cases r with
  | none => rfl
  | some p => cases p with
    | mk x st => rfl

theorem input_eq (st : GState) (s : Shape) :
    applyLayer st (Op.input s) [] =
      some (⟨st.n, s⟩, ⟨st.n + 1, ⟨Op.input s, []⟩ :: st.rev⟩) := rfl

theorem pool_eq (st : GState) (x : Tensor) (hh : 2 ≤ x.shape.h) (hw : 2 ≤ x.shape.w) :
    applyLayer st (Op.maxPool (2, 2)) [x] =
      some (⟨st.n, ⟨(x.shape.h - 2) / 2 + 1, (x.shape.w - 2) / 2 + 1, x.shape.c⟩⟩,
            ⟨st.n + 1, ⟨Op.maxPool (2, 2), [x.id]⟩ :: st.rev⟩) := by
  simp [applyLayer, opOutShape, poolOutDim, hh, hw]

theorem transpose_eq (st : GState) (x : Tensor) (f : Int) :
    applyLayer st (Op.convTranspose f (2, 2) (2, 2) Padding.same) [x] =
      some (⟨st.n, ⟨2 * x.shape.h, 2 * x.shape.w, f⟩⟩,
            ⟨st.n + 1, ⟨Op.convTranspose f (2, 2) (2, 2) Padding.same, [x.id]⟩ :: st.rev⟩) := by
  simp [applyLayer, opOutShape, convTransposeOutDim]

theorem concat2_eq (st : GState) (x y : Tensor)
    (hh : x.shape.h = y.shape.h) (hw : x.shape.w = y.shape.w) :
    applyLayer st Op.concatenate [x, y] =
      some (⟨st.n, ⟨x.shape.h, x.shape.w, x.shape.c + y.shape.c⟩⟩,
            ⟨st.n + 1, ⟨Op.concatenate, [x.id, y.id]⟩ :: st.rev⟩) := by
  simp [applyLayer, opOutShape, concatShape, concatFold, hh, hw]

theorem conv2d_none_eq (st : GState) (x : Tensor) (f : Int) (kk : Nat × Nat) :
    conv2d st x f kk Padding.same (1, 1) none =
      some (⟨st.n + 1, ⟨x.shape.h, x.shape.w, f⟩⟩,
            ⟨st.n + 2,
             ⟨Op.batchNorm false, [st.n]⟩ ::
             ⟨Op.conv2D f kk (1, 1) Padding.same false, [x.id]⟩ :: st.rev⟩) := by
  simp [conv2d, applyLayer, step, opOutShape, convOutDim, ceilDiv]

theorem conv2d_act_eq (st : GState) (x : Tensor) (f : Int) (kk : Nat × Nat) (act : String) :
    conv2d st x f kk Padding.same (1, 1) (some act) =
      some (⟨st.n + 2, ⟨x.shape.h, x.shape.w, f⟩⟩,
            ⟨st.n + 3,
             ⟨Op.activation act, [st.n + 1]⟩ ::
             ⟨Op.batchNorm false, [st.n]⟩ ::
             ⟨Op.conv2D f kk (1, 1) Padding.same false, [x.id]⟩ :: st.rev⟩) := by
  simp [conv2d, applyLayer, step, opOutShape, convOutDim, ceilDiv]

/-- Filter count of the first 3×3 branch of a MultiResBlock:
`int(weight * 0.167)`. -/
def mrbF1 (u : Int) (α : ℚ) : Int := pyInt ((u : ℚ) * α * 0.167)

/-- Filter count of the second 3×3 branch of a MultiResBlock:
`int(weight * 0.333)`. -/
def mrbF2 (u : Int) (α : ℚ) : Int := pyInt ((u : ℚ) * α * 0.333)

/-- Filter count of the third 3×3 branch of a MultiResBlock:
`int(weight * 0.5)`. -/
def mrbF3 (u : Int) (α : ℚ) : Int := pyInt ((u : ℚ) * α * 0.5)

/-- The sixteen nodes a MultiResBlock appends (most recent first), for a
block built at node offset `b` on the tensor with id `xid`. -/
def mrbNodesRev (b xid : Nat) (u : Int) (α : ℚ) : List Node :=
  [⟨Op.batchNorm true, [b + 14]⟩,
   ⟨Op.activation "relu", [b + 13]⟩,
   ⟨Op.add, [b + 1, b + 12]⟩,
   ⟨Op.batchNorm true, [b + 11]⟩,
   ⟨Op.concatenate, [b + 4, b + 7, b + 10]⟩,
   ⟨Op.activation "relu", [b + 9]⟩,
   ⟨Op.batchNorm false, [b + 8]⟩,
   ⟨Op.conv2D (mrbF3 u α) (3, 3) (1, 1) Padding.same false, [b + 7]⟩,
   ⟨Op.activation "relu", [b + 6]⟩,
   ⟨Op.batchNorm false, [b + 5]⟩,
   ⟨Op.conv2D (mrbF2 u α) (3, 3) (1, 1) Padding.same false, [b + 4]⟩,
   ⟨Op.activation "relu", [b + 3]⟩,
   ⟨Op.batchNorm false, [b + 2]⟩,
   ⟨Op.conv2D (mrbF1 u α) (3, 3) (1, 1) Padding.same false, [xid]⟩,
   ⟨Op.batchNorm false, [b]⟩,
   ⟨Op.conv2D (mrbF1 u α + mrbF2 u α + mrbF3 u α) (1, 1) (1, 1) Padding.same false, [xid]⟩]

/-- A MultiResBlock always builds (the shortcut and the concatenated
branches agree on shape by construction): it appends sixteen nodes and
returns a tensor with the input's spatial extents and
`int(W*0.167) + int(W*0.333) + int(W*0.5)` channels. -/
theorem mrb_eq (st : GState) (u : Int) (x : Tensor) (α : ℚ) :
    MultiResBlock st u x α =
      some (⟨st.n + 15, ⟨x.shape.h, x.shape.w, mrbF1 u α + mrbF2 u α + mrbF3 u α⟩⟩,
            ⟨st.n + 16, mrbNodesRev st.n x.id u α ++ st.rev⟩) := by
  simp [MultiResBlock, conv2d, applyLayer, step, opOutShape, convOutDim, ceilDiv,
    concatShape, concatFold, addShape, mrbNodesRev, mrbF1, mrbF2, mrbF3]

/-- The eight nodes one ResPath residual unit appends (most recent
first), for a unit built at node offset `b` on the tensor with id `tid`. -/
def unitNodesRev (b tid : Nat) (f : Int) : List Node :=
  [⟨Op.batchNorm true, [b + 6]⟩,
   ⟨Op.activation "relu", [b + 5]⟩,
   ⟨Op.add, [b + 1, b + 4]⟩,
   ⟨Op.activation "relu", [b + 3]⟩,
   ⟨Op.batchNorm false, [b + 2]⟩,
   ⟨Op.conv2D f (3, 3) (1, 1) Padding.same false, [tid]⟩,
   ⟨Op.batchNorm false, [b]⟩,
   ⟨Op.conv2D f (1, 1) (1, 1) Padding.same false, [tid]⟩]

theorem rploop_zero (st : GState) (f : Int) (t : Tensor) :
    resPathLoop st f t 0 = some (t, st) := rfl

/-- One loop iteration of `ResPath` always builds: it appends one
residual unit and recurses. -/
theorem rploop_succ (st : GState) (f : Int) (t : Tensor) (k : Nat) :
    resPathLoop st f t (k + 1) =
      resPathLoop ⟨st.n + 8, unitNodesRev st.n t.id f ++ st.rev⟩ f
        ⟨st.n + 7, ⟨t.shape.h, t.shape.w, f⟩⟩ k := by
  simp [resPathLoop, conv2d, applyLayer, step, opOutShape, convOutDim, ceilDiv,
    addShape, unitNodesRev]

/-- `ResPath` with `length=None` builds exactly one residual unit. -/
theorem respath_none_eq (st : GState) (f : Int) (x : Tensor) :
    ResPath st f x none =
      some (⟨st.n + 7, ⟨x.shape.h, x.shape.w, f⟩⟩,
            ⟨st.n + 8, unitNodesRev st.n x.id f ++ st.rev⟩) := by
  simp [ResPath, conv2d, applyLayer, step, opOutShape, convOutDim, ceilDiv,
    addShape, unitNodesRev]

/-- `ResPath` with an integer `length` builds one residual unit and then
runs the loop `length - 1` times (none when `length - 1 ≤ 0`). -/
theorem respath_some_eq (st : GState) (f : Int) (x : Tensor) (l : Int) :
    ResPath st f x (some l) =
      resPathLoop ⟨st.n + 8, unitNodesRev st.n x.id f ++ st.rev⟩ f
        ⟨st.n + 7, ⟨x.shape.h, x.shape.w, f⟩⟩ (l - 1).toNat := by
  simp [ResPath, conv2d, applyLayer, step, opOutShape, convOutDim, ceilDiv,
    addShape, unitNodesRev]

/-- Reassociation of node-id offsets, used to normalize builder-state
arithmetic. -/
theorem addShift (n a b : Nat) : n + a + b = n + (a + b) := by omega

/-- `ResPath` with `length=4` builds exactly four residual units. -/
theorem respath4_eq (st : GState) (f : Int) (x : Tensor) :
    ResPath st f x (some 4) =
      some (⟨st.n + 31, ⟨x.shape.h, x.shape.w, f⟩⟩,
            ⟨st.n + 32,
             unitNodesRev (st.n + 24) (st.n + 23) f ++
             (unitNodesRev (st.n + 16) (st.n + 15) f ++
              (unitNodesRev (st.n + 8) (st.n + 7) f ++
               (unitNodesRev st.n x.id f ++ st.rev)))⟩) := by
  simp [respath_some_eq, rploop_succ, rploop_zero, addShift]

/-- `ResPath` with `length=3` builds exactly three residual units. -/
theorem respath3_eq (st : GState) (f : Int) (x : Tensor) :
    ResPath st f x (some 3) =
      some (⟨st.n + 23, ⟨x.shape.h, x.shape.w, f⟩⟩,
            ⟨st.n + 24,
             unitNodesRev (st.n + 16) (st.n + 15) f ++
             (unitNodesRev (st.n + 8) (st.n + 7) f ++
              (unitNodesRev st.n x.id f ++ st.rev))⟩) := by
  simp [respath_some_eq, rploop_succ, rploop_zero, addShift]

/-- `ResPath` with `length=2` builds exactly two residual units. -/
theorem respath2_eq (st : GState) (f : Int) (x : Tensor) :
    ResPath st f x (some 2) =
      some (⟨st.n + 15, ⟨x.shape.h, x.shape.w, f⟩⟩,
            ⟨st.n + 16,
             unitNodesRev (st.n + 8) (st.n + 7) f ++
             (unitNodesRev st.n x.id f ++ st.rev)⟩) := by
  simp [respath_some_eq, rploop_succ, rploop_zero, addShift]

/-- The `ResPath` loop never fails, for any iteration count, tensor and
state. -/
theorem rploop_isSome : ∀ (k : Nat) (st : GState) (f : Int) (t : Tensor),
    (resPathLoop st f t k).isSome = true
  | 0, _, _, _ => rfl
  | k + 1, st, f, t => by
      rw [rploop_succ]
      exact rploop_isSome k _ f _

/-- The `ResPath` loop appends exactly eight nodes per iteration. -/
theorem rploop_len : ∀ (k : Nat) (st : GState) (f : Int) (t : Tensor),
    ∃ t2 st2, resPathLoop st f t k = some (t2, st2) ∧
      st2.rev.length = st.rev.length + 8 * k
  | 0, st, _, t => ⟨t, st, rfl, by simp⟩
  | k + 1, st, f, t => by
      rw [rploop_succ]
      obtain ⟨t2, st2, heq, hlen⟩ :=
        rploop_len k ⟨st.n + 8, unitNodesRev st.n t.id f ++ st.rev⟩ f
          ⟨st.n + 7, ⟨t.shape.h, t.shape.w, f⟩⟩
      refine ⟨t2, st2, heq, ?_⟩
      simp [unitNodesRev] at hlen
      omega

/-! ### The constructed MultiResUNet graph at 16-divisible input sizes -/

set_option maxHeartbeats 4000000 in
set_option maxRecDepth 16000 in
/-- Master characterization: at any input size whose spatial extents are
positive multiples of 16, graph construction succeeds, builds exactly 240
layers, has the `Input` placeholder (id 0) as sole model input and the
final sigmoid activation (id 239) with shape `(h, w, 1)` as sole model
output; the graph is acyclic, uses only operations of `extOpSet`, and is
not contained in the specification's five-operation set `specOpSet`. -/
theorem unet16_facts (a b : Nat) (c : Int) (ha : 0 < a) (hb : 0 < b) :
    (MultiResUnet ⟨16 * a, 16 * b, c⟩).map
        (fun m => (m.graph.length, m.inputs, m.outputs,
                   isDAG m.graph, m.graph.all fun nd => specOpSet nd.op,
                   m.graph.all fun nd => extOpSet nd.op)) =
      some (240, [⟨0, ⟨16 * a, 16 * b, c⟩⟩], [⟨239, ⟨16 * a, 16 * b, 1⟩⟩], true, false, true) := by
  have c1 : 2 ≤ 16 * a := by omega
  have c2 : 2 ≤ 8 * a := by omega
  have c3 : 2 ≤ 4 * a := by omega
  have c4 : 2 ≤ 2 * a := by omega
  have d1 : (16 * a - 2) / 2 + 1 = 8 * a := by omega
  have d2 : (8 * a - 2) / 2 + 1 = 4 * a := by omega
  have d3 : (4 * a - 2) / 2 + 1 = 2 * a := by omega
  have d4 : (2 * a - 2) / 2 + 1 = a := by omega
  have e1 : 2 ≤ 16 * b := by omega
  have e2 : 2 ≤ 8 * b := by omega
  have e3 : 2 ≤ 4 * b := by omega
  have e4 : 2 ≤ 2 * b := by omega
  have f1 : (16 * b - 2) / 2 + 1 = 8 * b := by omega
  have f2 : (8 * b - 2) / 2 + 1 = 4 * b := by omega
  have f3 : (4 * b - 2) / 2 + 1 = 2 * b := by omega
  have f4 : (2 * b - 2) / 2 + 1 = b := by omega
  have m2 : 2 * (2 * a) = 4 * a := by ring
  have m3 : 2 * (4 * a) = 8 * a := by ring
  have m4 : 2 * (8 * a) = 16 * a := by ring
  have n2 : 2 * (2 * b) = 4 * b := by ring
  have n3 : 2 * (4 * b) = 8 * b := by ring
  have n4 : 2 * (8 * b) = 16 * b := by ring
  simp only [MultiResUnet, input_eq, step_some, mrb_eq, pool_eq, respath4_eq, respath3_eq,
    respath2_eq, respath_none_eq, transpose_eq, concat2_eq, conv2d_act_eq, addShift,
    c1, c2, c3, c4, d1, d2, d3, d4, e1, e2, e3, e4, f1, f2, f3, f4,
    m2, m3, m4, n2, n3, n4]
  simp [mrbNodesRev, unitNodesRev, isDAG, isDAGAux, specOpSet, extOpSet, -Prod.mk_one_one]

/-! ### Spec-side description of the architecture (for the refinement
claim): the composition the specification describes, written as four
encoder levels, a bottleneck, four decoder levels and a final sigmoid
convolution. -/

/-- One encoder level as the specification words it: a `MultiResBlock`,
a 2×2 max-pooling of its output, and a `ResPath` on the skip connection;
returns (pooled tensor, skip tensor). -/
def specEncoderLevel (st : GState) (x : Tensor) (u : Int) (len : Option Int) :
    Option ((Tensor × Tensor) × GState) :=
  step (MultiResBlock st u x) fun m st =>
  step (applyLayer st (Op.maxPool (2, 2)) [m]) fun p st =>
  step (ResPath st u m len) fun r st =>
  some ((p, r), st)

/-- One decoder level as the specification words it: a 2×2-stride
transposed convolution, a concatenation with the corresponding skip, and a
`MultiResBlock`. -/
def specDecoderLevel (st : GState) (x skip : Tensor) (u : Int) : Option (Tensor × GState) :=
  step (applyLayer st (Op.convTranspose u (2, 2) (2, 2) Padding.same) [x]) fun up st =>
  step (applyLayer st Op.concatenate [up, skip]) fun cat st =>
  MultiResBlock st u cat

/-- The U-shaped encoder–decoder graph exactly as the specification
describes it: encoder levels with `u_val` 32, 64, 128, 256 and `ResPath`
lengths 4, 3, 2, default; a bottleneck `MultiResBlock` with `u_val` 512;
decoder levels with `u_val` 256, 128, 64, 32 concatenating with the
matching skip; a final 1-filter sigmoid `conv2d`; the model's input is the
`Input` layer and its output the final convolution. -/
def specUShapedNet (input_size : Shape) : Option Model :=
  step (applyLayer ⟨0, []⟩ (Op.input input_size) []) fun inp st =>
  step (specEncoderLevel st inp 32 (some 4)) fun ps1 st =>
  step (specEncoderLevel st ps1.1 64 (some 3)) fun ps2 st =>
  step (specEncoderLevel st ps2.1 128 (some 2)) fun ps3 st =>
  step (specEncoderLevel st ps3.1 256 none) fun ps4 st =>
  step (MultiResBlock st 512 ps4.1) fun bott st =>
  step (specDecoderLevel st bott ps4.2 256) fun d6 st =>
  step (specDecoderLevel st d6 ps3.2 128) fun d7 st =>
  step (specDecoderLevel st d7 ps2.2 64) fun d8 st =>
  step (specDecoderLevel st d8 ps1.2 32) fun d9 st =>
  step (conv2d st d9 1 (1, 1) Padding.same (1, 1) (some "sigmoid")) fun out st =>
  some ⟨st.rev.reverse, [inp], [out]⟩

/-- Existential form of `unet16_facts`, convenient for deriving the
individual claims. -/
theorem unet16_model (a b : Nat) (c : Int) (ha : 0 < a) (hb : 0 < b) :
    ∃ m, MultiResUnet ⟨16 * a, 16 * b, c⟩ = some m ∧
      m.graph.length = 240 ∧
      m.inputs = [⟨0, ⟨16 * a, 16 * b, c⟩⟩] ∧
      m.outputs = [⟨239, ⟨16 * a, 16 * b, 1⟩⟩] ∧
      isDAG m.graph = true ∧
      (m.graph.all fun nd => specOpSet nd.op) = false ∧
      (m.graph.all fun nd => extOpSet nd.op) = true := by
  have key := unet16_facts a b c ha hb
  rcases hmu : MultiResUnet ⟨16 * a, 16 * b, c⟩ with _ | m
  · rw [hmu] at key
    simp at key
  · rw [hmu] at key
    simp only [Option.map_some', Option.some.injEq, Prod.mk.injEq] at key
    exact ⟨m, rfl, key.1, key.2.1, key.2.2.1, key.2.2.2.1, key.2.2.2.2.1, key.2.2.2.2.2⟩

/-! ### The claims -/

/-- Claim C1: for every input size `(h, w, c)` with `h` and `w` positive
multiples of 16, the model built by `MultiResUnet` has output shape
`(h, w, 1)` (spatial extents preserved, one channel from the final 1×1
sigmoid convolution), and the constructed graph has the same fixed number
of layers (240) for every such input size. -/
theorem claim_C1 (h w : Nat) (c : Int) (hdh : 16 ∣ h) (hdw : 16 ∣ w)
    (hh : 0 < h) (hw : 0 < w) :
    ∃ m, MultiResUnet ⟨h, w, c⟩ = some m ∧
      m.outputs.map Tensor.shape = [⟨h, w, 1⟩] ∧ m.graph.length = 240 := by
  obtain ⟨a, rfl⟩ := hdh
  obtain ⟨b, rfl⟩ := hdw
  obtain ⟨m, hm, hlen, _, houts, _⟩ := unet16_model a b c (by omega) (by omega)
  exact ⟨m, hm, by rw [houts]; rfl, hlen⟩

/-- Witness for C1 at the concrete input size (16, 16, 3). -/
theorem claim_C1_witness :
    ∃ m, MultiResUnet ⟨16, 16, 3⟩ = some m ∧
      m.outputs.map Tensor.shape = [⟨16, 16, 1⟩] ∧ m.graph.length = 240 :=
  claim_C1 16 16 3 ⟨1, rfl⟩ ⟨1, rfl⟩ (by decide) (by decide)

/-- Claim C2: `MultiResUnet` composes exactly `conv2d`, `MultiResBlock`
and `ResPath` into the U-shaped encoder–decoder graph the specification
describes (encoder `u_val` 32/64/128/256 with `ResPath` lengths
4/3/2/default, bottleneck 512, decoder 256/128/64/32, final 1-filter
sigmoid `conv2d`), and the returned model has exactly the `Input` layer as
input and the final convolution as output: for every input size the two
constructions coincide. -/
theorem claim_C2 (s : Shape) : MultiResUnet s = specUShapedNet s := by
  simp only [MultiResUnet, specUShapedNet, specEncoderLevel, specDecoderLevel,
    step_assoc, step_some, input_eq, mrb_eq, respath4_eq, respath3_eq, respath2_eq,
    respath_none_eq, transpose_eq, conv2d_act_eq, addShift]

/-- Claim C3: for every `u_val`, every non-`None` `alpha` and every input,
`MultiResBlock` builds (in particular the elementwise add of shortcut and
concatenated branches succeeds), the filter count of its 1×1
dimension-conservation convolution is exactly the sum of the filter counts
of the three 3×3 branch convolutions, and the block's output carries that
common channel count. -/
theorem claim_C3 (st : GState) (u : Int) (x : Tensor) (α : ℚ) :
    ∃ t st2 f167 f333 f500,
      MultiResBlock st u x α = some (t, st2) ∧
      convFilters st2.rev.reverse =
        convFilters st.rev.reverse ++ [f167 + f333 + f500, f167, f333, f500] ∧
      t.shape = ⟨x.shape.h, x.shape.w, f167 + f333 + f500⟩ := by
  refine ⟨_, _, mrbF1 u α, mrbF2 u α, mrbF3 u α, mrb_eq st u x α, ?_, rfl⟩
  simp [convFilters, mrbNodesRev, -Prod.mk_one_one]

/-- Claim C4 counterexample: the graph built at input size (16, 16, 1)
contains operations outside the specification's five-kind set
(convolution, batch normalization, pooling, concatenation, transposed
convolution) — namely activation layers, elementwise adds and the input
placeholder. -/
theorem claim_C4_counterexample :
    (MultiResUnet ⟨16, 16, 1⟩).map (fun m => m.graph.all fun nd => specOpSet nd.op) =
      some false := by
  obtain ⟨m, hm, _, _, _, _, hspec, _⟩ := unet16_model 1 1 1 (by decide) (by decide)
  norm_num at hm
  rw [hm]
  simp [hspec]

/-- Claim C4, amended: for every input size `(h, w, c)` with `h` and `w`
positive multiples of 16, the constructed graph is a DAG (every layer is
applied only to outputs of layers constructed earlier), and its operations
are drawn from the set convolution, batch normalization, pooling,
concatenation, transposed convolution, activation, elementwise addition
and the input placeholder. -/
theorem claim_C4_amended (h w : Nat) (c : Int) (hdh : 16 ∣ h) (hdw : 16 ∣ w)
    (hh : 0 < h) (hw : 0 < w) :
    ∃ m, MultiResUnet ⟨h, w, c⟩ = some m ∧ isDAG m.graph = true ∧
      (m.graph.all fun nd => extOpSet nd.op) = true := by
  obtain ⟨a, rfl⟩ := hdh
  obtain ⟨b, rfl⟩ := hdw
  obtain ⟨m, hm, _, _, _, hdag, _, hext⟩ := unet16_model a b c (by omega) (by omega)
  exact ⟨m, hm, hdag, hext⟩

/-- Witness for the amended C4 at the concrete input size (16, 16, 1). -/
theorem claim_C4_witness :
    ∃ m, MultiResUnet ⟨16, 16, 1⟩ = some m ∧ isDAG m.graph = true ∧
      (m.graph.all fun nd => extOpSet nd.op) = true :=
  claim_C4_amended 16 16 1 ⟨1, rfl⟩ ⟨1, rfl⟩ (by decide) (by decide)

/-- Claim C5: the repository's functions perform no validation of their
own.  `conv2d` fails exactly when its framework convolution's shape
formula does (batch normalization and activation never fail);
`MultiResBlock` and `ResPath` succeed for all argument values whatsoever;
and `MultiResUnet` succeeds at every 16-divisible input size, so every
failure during construction originates in a framework shape computation. -/
theorem claim_C5 (st : GState) (x : Tensor) (f : Int) (kk : Nat × Nat) (p : Padding)
    (strd : Nat × Nat) (act : Option String) (u fl : Int) (α : ℚ) (len : Option Int)
    (h w : Nat) (c : Int) (hdh : 16 ∣ h) (hdw : 16 ∣ w) (hh : 0 < h) (hw : 0 < w) :
    ((conv2d st x f kk p strd act).isSome ↔
        (opOutShape (Op.conv2D f kk strd p false) [x.shape]).isSome) ∧
    (MultiResBlock st u x α).isSome = true ∧
    (ResPath st fl x len).isSome = true ∧
    (MultiResUnet ⟨h, w, c⟩).isSome = true := by
  refine ⟨?_, ?_, ?_, ?_⟩
  · rcases hr : opOutShape (Op.conv2D f kk strd p false) [x.shape] with _ | s <;>
      cases act <;>
      simp only [conv2d, applyLayer, List.map_cons, List.map_nil, hr] <;>
      rfl
  · simp [mrb_eq]
  · rcases len with _ | l
    · simp [respath_none_eq]
    · simp only [respath_some_eq]
      exact rploop_isSome _ _ _ _
  · obtain ⟨a, rfl⟩ := hdh
    obtain ⟨b, rfl⟩ := hdw
    obtain ⟨m, hm, _⟩ := unet16_model a b c (by omega) (by omega)
    rw [hm]
    rfl

/-- Witness for C5 at concrete arguments. -/
theorem claim_C5_witness :
    ((conv2d ⟨0, []⟩ ⟨0, ⟨4, 4, 3⟩⟩ 7 (3, 3) Padding.valid (1, 1) (some "relu")).isSome ↔
        (opOutShape (Op.conv2D 7 (3, 3) (1, 1) Padding.valid false) [⟨4, 4, 3⟩]).isSome) ∧
    (MultiResBlock ⟨0, []⟩ 32 ⟨0, ⟨4, 4, 3⟩⟩ 1.67).isSome = true ∧
    (ResPath ⟨0, []⟩ 8 ⟨0, ⟨4, 4, 3⟩⟩ (some 5)).isSome = true ∧
    (MultiResUnet ⟨16, 16, 3⟩).isSome = true :=
  claim_C5 ⟨0, []⟩ ⟨0, ⟨4, 4, 3⟩⟩ 7 (3, 3) Padding.valid (1, 1) (some "relu") 32 8 1.67
    (some 5) 16 16 3 ⟨1, rfl⟩ ⟨1, rfl⟩ (by decide) (by decide)

/-- Claim C6: the only arithmetic `MultiResBlock` performs to size filter
counts is `W = u_val * alpha` truncated through `int()`: its convolutions
receive, in construction order, exactly `int(W*0.167) + int(W*0.333) +
int(W*0.5)`, `int(W*0.167)`, `int(W*0.333)` and `int(W*0.5)` filters, and
no other filter count appears in the block. -/
theorem claim_C6 (st : GState) (u : Int) (x : Tensor) (α : ℚ) :
    ∃ t st2, MultiResBlock st u x α = some (t, st2) ∧
      convFilters st2.rev.reverse =
        convFilters st.rev.reverse ++
          [pyInt ((u : ℚ) * α * 0.167) + pyInt ((u : ℚ) * α * 0.333) +
             pyInt ((u : ℚ) * α * 0.5),
           pyInt ((u : ℚ) * α * 0.167), pyInt ((u : ℚ) * α * 0.333),
           pyInt ((u : ℚ) * α * 0.5)] := by
  refine ⟨_, _, mrb_eq st u x α, ?_⟩
  simp [convFilters, mrbNodesRev, mrbF1, mrbF2, mrbF3, -Prod.mk_one_one]

/-- Claim C7: for every input size `(h, w, c)` with `h` and `w` positive
multiples of 16, every two-tensor operation in the graph is
shape-compatible (the four poolings halve the spatial extents, the four
transposed convolutions double them back, every concatenation and
residual add receives matching spatial extents), so graph construction
never reaches a framework shape-mismatch error. -/
theorem claim_C7 (h w : Nat) (c : Int) (hdh : 16 ∣ h) (hdw : 16 ∣ w)
    (hh : 0 < h) (hw : 0 < w) :
    (MultiResUnet ⟨h, w, c⟩).isSome = true := by
  obtain ⟨a, rfl⟩ := hdh
  obtain ⟨b, rfl⟩ := hdw
  obtain ⟨m, hm, _⟩ := unet16_model a b c (by omega) (by omega)
  rw [hm]
  rfl

/-- Witness for C7 at the concrete input size (32, 16, 2). -/
theorem claim_C7_witness : (MultiResUnet ⟨32, 16, 2⟩).isSome = true :=
  claim_C7 32 16 2 ⟨2, rfl⟩ ⟨1, rfl⟩ (by decide) (by decide)

/-- Claim C8: `ResPath` builds exactly one residual unit (eight layers)
when `length` is `None`, and `1 + max(0, length - 1)` units when `length`
is an integer; in particular lengths 0, 1 and `None` produce identical
results. -/
theorem claim_C8 (st : GState) (f : Int) (x : Tensor) (l : Int) :
    ResPath st f x (some 0) = ResPath st f x none ∧
    ResPath st f x (some 1) = ResPath st f x none ∧
    (∃ t st2, ResPath st f x none = some (t, st2) ∧
        st2.rev.length = st.rev.length + 8 * 1) ∧
    (∃ t st2, ResPath st f x (some l) = some (t, st2) ∧
        st2.rev.length = st.rev.length + 8 * (1 + (l - 1).toNat)) := by
  refine ⟨?_, ?_, ?_, ?_⟩
  · simp [respath_some_eq, respath_none_eq, rploop_zero]
  · simp [respath_some_eq, respath_none_eq, rploop_zero]
  · refine ⟨_, _, respath_none_eq st f x, ?_⟩
    simp only [List.length_append, unitNodesRev, List.length_cons, List.length_nil]
    omega
  · have h1 := respath_some_eq st f x l
    obtain ⟨t2, st2, heq, hlen⟩ :=
      rploop_len (l - 1).toNat ⟨st.n + 8, unitNodesRev st.n x.id f ++ st.rev⟩ f
        ⟨st.n + 7, ⟨x.shape.h, x.shape.w, f⟩⟩
    refine ⟨t2, st2, by rw [h1, heq], ?_⟩
    simp only [List.length_append, unitNodesRev, List.length_cons, List.length_nil] at hlen
    omega

/-- Claim C9: graph construction is deterministic and stateless — the
embedding is a pure function of the input size, so two calls of
`MultiResUnet` with the same input size produce structurally identical
results. -/
theorem claim_C9 (s : Shape) (r1 r2 : Option Model)
    (h1 : MultiResUnet s = r1) (h2 : MultiResUnet s = r2) : r1 = r2 := by
  rw [← h1, ← h2]

/-- Witness for C9 at the concrete input size (16, 16, 3). -/
theorem claim_C9_witness : MultiResUnet ⟨16, 16, 3⟩ = MultiResUnet ⟨16, 16, 3⟩ :=
  claim_C9 ⟨16, 16, 3⟩ _ _ rfl rfl
